import Mathlib

/-!
Verification of the marksman language-server provisioning adapter
(`crates/languages/src/markdown.rs`): platform asset-name resolution,
release resolution, fetch-and-cache with pruning, the cached-binary
reader, and completion-label formatting.

The adapter's async I/O is embedded by passing the external world
explicitly: the HTTP GET outcome and the container-directory contents are
arguments, and the stateful operations return the updated directory
contents together with the number of HTTP GET requests issued.
-/

deriving instance DecidableEq for Except

namespace Markdown

/-- An asset attached to a GitHub release (`GithubReleaseAsset`). -/
structure GithubReleaseAsset where
  name : String
  browser_download_url : String
deriving DecidableEq, Repr

/-- A GitHub release as returned by the release-index API (`GithubRelease`). -/
structure GithubRelease where
  tag_name : String
  prerelease : Bool
  draft : Bool
  assets : List GithubReleaseAsset
deriving DecidableEq, Repr

/-- The resolved version handed from the release resolver to the fetch
engine (`GitHubLspBinaryVersion`): a tag name and a download URL. -/
structure GitHubLspBinaryVersion where
  name : String
  url : String
deriving DecidableEq, Repr

/-- The result value handed to the process launcher (`LanguageServerBinary`). -/
structure LanguageServerBinary where
  path : String
  env : Option (List (String × String))
  arguments : List String
deriving DecidableEq, Repr

/-- The type-erased `Box<dyn Any>` value returned by
`fetch_latest_server_version`: either the concrete
`GitHubLspBinaryVersion` or some other payload. -/
inductive AnyValue where
  | github (version : GitHubLspBinaryVersion)
  | other (description : String)
deriving DecidableEq, Repr

/-- The `downcast::<GitHubLspBinaryVersion>()` operation on the
type-erased value: succeeds exactly on the `github` constructor. -/
def AnyValue.downcastGithub : AnyValue → Option GitHubLspBinaryVersion
  | .github v => some v
  | .other _ => none

/-- The error cases the adapter can surface (each `bail!`/`anyhow!` site). -/
inductive ProvisionError where
  | unsupportedOs (os : String)
  | unsupportedArch (arch : String)
  | releaseQueryFailed
  | noMatchingAsset (assetName : String)
  | downloadError
  | downloadFailed (status : Nat)
deriving DecidableEq, Repr

/-- `server_binary_arguments()`: the fixed argument vector. -/
def server_binary_arguments : List String := ["server"]

/-- The inner `match` of `build_asset_name`: maps (OS, architecture) to the
distributor's asset-name suffix, or bails on an unsupported platform. -/
def asset_name_suffix (os arch : String) : Except ProvisionError String :=
  if os == "macos" then .ok "macos"
  else if os == "linux" then
    if arch == "x86_64" then .ok "linux-x64"
    else if arch == "aarch64" || arch == "arm64" then .ok "linux-arm64"
    else .error (.unsupportedArch arch)
  else if os == "windows" then .ok ".exe"
  else .error (.unsupportedOs os)

/-- `MarkdownLspAdapter::build_asset_name`: formats the suffix into the
full asset name. -/
def build_asset_name (os arch : String) : Except ProvisionError String :=
  (asset_name_suffix os arch).map (fun suffix => "marksman-" ++ suffix)

/-- Modelled from the spec: `latest_github_release` lives in the
`http_client::github` crate, which is not part of this source tree; only
its call site `latest_github_release("artempyanykh/marksman", true, false,
...)` is. Per the spec, the query returns the latest qualifying release
with "pre-releases and drafts excluded per the query's own parameters":
the second flag requires the matched release to carry assets and the
third admits pre-releases only when true; drafts are never returned. The
remote release list is passed explicitly, `none` standing for a failed
remote query (network, auth, rate-limit). -/
def latest_github_release (_repo_name : String) (require_assets pre_release : Bool)
    (releases : Option (List GithubRelease)) : Except ProvisionError GithubRelease :=
  match releases with
  | none => .error .releaseQueryFailed
  | some rs =>
    match rs.find? (fun r =>
        !r.draft && (pre_release || !r.prerelease)
          && (!require_assets || !r.assets.isEmpty)) with
    | some r => .ok r
    | none => .error .releaseQueryFailed

/-- `MarkdownLspAdapter::fetch_latest_server_version`: query the latest
release, compute the platform asset name, find the asset whose name
equals it, and box the resulting version. The host OS and architecture
(`consts::OS`, `consts::ARCH`) are passed explicitly. -/
def fetch_latest_server_version (releases : Option (List GithubRelease))
    (os arch : String) : Except ProvisionError AnyValue :=
  match latest_github_release "artempyanykh/marksman" true false releases with
  | .error e => .error e
  | .ok release =>
    match build_asset_name os arch with
    | .error e => .error e
    | .ok asset_name =>
      match release.assets.find? (fun asset => asset.name == asset_name) with
      | none => .error (.noMatchingAsset asset_name)
      | some asset =>
        .ok (.github { name := release.tag_name, url := asset.browser_download_url })

/-- One file inside the container directory: its full path, its byte
contents, and its permission mode bits. -/
structure FsEntry where
  path : String
  contents : List Nat
  mode : Nat
deriving DecidableEq, Repr

/-- An HTTP response: status code and body bytes. The transport-level GET
outcome is `Option Response`, `none` standing for a failure before any
response was obtained. -/
structure Response where
  status : Nat
  body : List Nat
deriving DecidableEq, Repr

/-- `response.status().is_success()`: the status is in the 2xx class. -/
def statusIsSuccess (status : Nat) : Bool :=
  200 ≤ status && status < 300

/-- `File::create(path)`: create the file, truncating any existing file at
that path to zero bytes, with default (non-executable) mode bits. -/
def createFile (fs : List FsEntry) (p : String) : List FsEntry :=
  fs.filter (fun e => e.path != p) ++ [{ path := p, contents := [], mode := 0o644 }]

/-- `futures::io::copy(response.body_mut(), &mut file)`: stream the body
into the file at `p`. -/
def writeContents (fs : List FsEntry) (p : String) (body : List Nat) : List FsEntry :=
  fs.map (fun e => if e.path == p then { e with contents := body } else e)

/-- `fs::set_permissions(path, from_mode(mode))`. -/
def setPermissions (fs : List FsEntry) (p : String) (mode : Nat) : List FsEntry :=
  fs.map (fun e => if e.path == p then { e with mode := mode } else e)

/-- `util::fs::remove_matching(dir, predicate)`: delete every entry of the
container directory whose path satisfies the predicate (deletion errors
are logged and ignored by the utility, so the model is pure removal). -/
def remove_matching (fs : List FsEntry) (predicate : String → Bool) : List FsEntry :=
  fs.filter (fun e => !(predicate e.path))

/-- The target path `container_dir.join(format!("marksman-{}", version.name))`. -/
def binaryPath (container_dir : String) (version : GitHubLspBinaryVersion) : String :=
  container_dir ++ "/marksman-" ++ version.name

/-- `MarkdownLspAdapter::fetch_server_binary`, after the successful
downcast: the container-directory contents are the state, the GET outcome
is an argument, and the third component of the result counts the HTTP GET
requests issued. On the fast path (a file already exists at the target
path) no GET happens; otherwise the file is created after the GET
returns, the status is checked, the body streamed, permissions set, and
every other entry of the container pruned. -/
def fetch_server_binary (version : GitHubLspBinaryVersion) (container_dir : String)
    (http : Option Response) (fs : List FsEntry) :
    Except ProvisionError LanguageServerBinary × List FsEntry × Nat :=
  let binary_path := binaryPath container_dir version
  if (fs.find? (fun e => e.path == binary_path)).isSome then
    (.ok { path := binary_path, env := none, arguments := server_binary_arguments }, fs, 0)
  else
    match http with
    | none => (.error .downloadError, fs, 1)
    | some response =>
      let fs1 := createFile fs binary_path
      if !(statusIsSuccess response.status) then
        (.error (.downloadFailed response.status), fs1, 1)
      else
        let fs2 := writeContents fs1 binary_path response.body
        let fs3 := setPermissions fs2 binary_path 0o755
        let fs4 := remove_matching fs3 (fun entry => entry != binary_path)
        (.ok { path := binary_path, env := none, arguments := server_binary_arguments }, fs4, 1)

/-- `fetch_server_binary` as written, including the unconditional
`version.downcast::<GitHubLspBinaryVersion>().unwrap()` on the
type-erased argument: `none` is the panic of the failed unwrap. -/
def fetch_server_binary_any (version : AnyValue) (container_dir : String)
    (http : Option Response) (fs : List FsEntry) :
    Option (Except ProvisionError LanguageServerBinary × List FsEntry × Nat) :=
  (version.downcastGithub).map (fun v => fetch_server_binary v container_dir http fs)

/-- The caller's flow: resolve the latest version, then materialize it.
A resolver error is returned without touching the filesystem or the
network; `none` is the downcast panic inside `fetch_server_binary`. -/
def provision (releases : Option (List GithubRelease)) (os arch container_dir : String)
    (http : Option Response) (fs : List FsEntry) :
    Option (Except ProvisionError LanguageServerBinary × List FsEntry × Nat) :=
  match fetch_latest_server_version releases os arch with
  | .error e => some (.error e, fs, 0)
  | .ok boxed => fetch_server_binary_any boxed container_dir http fs

/-- The `while let Some(entry) = entries.next()` loop of
`get_cached_server_binary`: each directory entry is `Option String`,
`none` standing for an entry that errors when read (the loop's `entry?`),
which aborts the whole read. Returns the last path seen, or `none` when
some entry errored. -/
def readDirLast : List (Option String) → Option String → Option (Option String)
  | [], last => some last
  | none :: _, _ => none
  | some p :: rest, _ => readDirLast rest (some p)

/-- `get_cached_server_binary`: `none` for the directory argument stands
for `fs::read_dir` failing (unreadable container). Every internal failure
becomes `none` via `.log_err()`; an empty directory yields the logged
error "no cached marksman binary", also `none`. Otherwise the last entry
in iteration order is returned with `Default::default()` arguments. -/
def get_cached_server_binary (dir : Option (List (Option String))) :
    Option LanguageServerBinary :=
  match dir with
  | none => none
  | some entries =>
    match readDirLast entries none with
    | none => none
    | some none => none
    | some (some p) => some { path := p, env := none, arguments := [] }

/-- `lsp::CompletionItemKind::REFERENCE` (LSP completion-item kind 18). -/
def COMPLETION_ITEM_KIND_REFERENCE : Nat := 18

/-- The fields of `lsp::CompletionItem` the labeler reads: the optional
kind (an LSP kind number), the label, and the optional detail text. -/
structure CompletionItem where
  kind : Option Nat
  label : String
  detail : Option String
deriving DecidableEq, Repr

/-- The display label (`CodeLabel`): the claims only concern its text. -/
structure CodeLabel where
  text : String
deriving DecidableEq, Repr

/-- `CodeLabel::plain(text, filter_text)`: builds a plain label from the
text (the filter argument does not affect the text). -/
def CodeLabel.plain (text : String) (_filter_text : Option String) : CodeLabel :=
  { text := text }

/-- `MarkdownLspAdapter::label_for_completion`: on kind `REFERENCE` with
detail present, renders "detail - label"; every other combination yields
no override. -/
def label_for_completion (completion : CompletionItem) : Option CodeLabel :=
  match completion.kind with
  | some k =>
    if k == COMPLETION_ITEM_KIND_REFERENCE && completion.detail.isSome then
      match completion.detail with
      | some detail =>
        some (CodeLabel.plain (detail ++ " - " ++ completion.label) none)
      | none => none
    else none
  | none => none

/-! Helper lemmas shared by the claim theorems. -/

/-- A failed existence check means no entry of the container carries the
target path. -/
lemma path_not_mem_of_find?_eq_none {fs : List FsEntry} {p : String}
    (h : fs.find? (fun e => e.path == p) = none) :
    ∀ e ∈ fs, e.path ≠ p := by
  intro e he
  have := List.find?_eq_none.mp h e he
  simpa using this

/-- Creating a file at a path no entry carries appends the new entry. -/
lemma createFile_of_not_mem (fs : List FsEntry) (p : String)
    (h : ∀ e ∈ fs, e.path ≠ p) :
    createFile fs p = fs ++ [{ path := p, contents := [], mode := 0o644 }] := by
  unfold createFile
  congr 1
  apply List.filter_eq_self.mpr
  intro e he
  simpa using h e he

/-- Streaming the body touches no entry whose path differs from the target. -/
lemma writeContents_of_not_mem (fs : List FsEntry) (p : String) (body : List Nat)
    (h : ∀ e ∈ fs, e.path ≠ p) : writeContents fs p body = fs := by
  unfold writeContents
  rw [List.map_congr_left (g := id), List.map_id]
  intro e he
  have he' : (e.path == p) = false := by simpa using h e he
  simp [he']

/-- Setting permissions touches no entry whose path differs from the target. -/
lemma setPermissions_of_not_mem (fs : List FsEntry) (p : String) (mode : Nat)
    (h : ∀ e ∈ fs, e.path ≠ p) : setPermissions fs p mode = fs := by
  unfold setPermissions
  rw [List.map_congr_left (g := id), List.map_id]
  intro e he
  have he' : (e.path == p) = false := by simpa using h e he
  simp [he']

/-- Pruning deletes every entry whose path differs from the kept target. -/
lemma remove_matching_of_not_mem (fs : List FsEntry) (p : String)
    (h : ∀ e ∈ fs, e.path ≠ p) :
    remove_matching fs (fun entry => entry != p) = [] := by
  unfold remove_matching
  apply List.filter_eq_nil_iff.mpr
  intro e he
  simpa using h e he

/-- The download path's filesystem pipeline: when no entry of the
container carries the target path beforehand, creating the file, writing
the body, setting permissions and pruning leaves exactly the one new
entry. -/
lemma prune_pipeline (fs : List FsEntry) (p : String) (body : List Nat)
    (h : ∀ e ∈ fs, e.path ≠ p) :
    remove_matching (setPermissions (writeContents (createFile fs p) p body) p 0o755)
      (fun entry => entry != p) =
      [{ path := p, contents := body, mode := 0o755 }] := by
  rw [createFile_of_not_mem fs p h]
  show remove_matching (setPermissions (writeContents (fs ++ [_]) p body) p 0o755) _ = _
  unfold writeContents
  rw [List.map_append]
  rw [show (fs.map fun e => if e.path == p then { e with contents := body } else e) =
      writeContents fs p body from rfl, writeContents_of_not_mem fs p body h]
  unfold setPermissions
  rw [List.map_append]
  rw [show (fs.map fun e => if e.path == p then { e with mode := 0o755 } else e) =
      setPermissions fs p 0o755 from rfl, setPermissions_of_not_mem fs p 0o755 h]
  unfold remove_matching
  rw [List.filter_append]
  rw [show (fs.filter fun e => !((fun entry => entry != p) e.path)) =
      remove_matching fs (fun entry => entry != p) from rfl,
    remove_matching_of_not_mem fs p h]
  simp

/-- Reading a directory whose entries all succeed yields the last path,
or the accumulator when the directory is empty. -/
lemma readDirLast_map_some (paths : List String) (acc : Option String) :
    readDirLast (paths.map some) acc = some (paths.getLast?.or acc) := by
  induction paths generalizing acc with
  | nil => simp [readDirLast]
  | cons q qs ih =>
    simp only [List.map_cons, readDirLast, ih]
    cases qs with
    | nil => simp
    | cons r rs =>
      have hne : (r :: rs) ≠ ([] : List String) := by simp
      obtain ⟨x, hx⟩ := Option.isSome_iff_exists.mp (List.getLast?_isSome.mpr hne)
      simp [List.getLast?_cons_cons, hx]

/-- Reading a directory aborts with an error as soon as an entry errors. -/
lemma readDirLast_entry_error (entries rest : List (Option String))
    (acc : Option String) :
    readDirLast (entries ++ none :: rest) acc = none := by
  induction entries generalizing acc with
  | nil => simp [readDirLast]
  | cons e es ih =>
    cases e with
    | none => simp [readDirLast]
    | some q => simp [readDirLast, ih]

/-- Destructuring a successful resolution: the boxed result is always the
concrete version built from the selected release and found asset. -/
lemma fetch_latest_ok_inv {releases : Option (List GithubRelease)} {os arch : String}
    {a : AnyValue} (h : fetch_latest_server_version releases os arch = .ok a) :
    ∃ release asset,
      latest_github_release "artempyanykh/marksman" true false releases = .ok release ∧
      build_asset_name os arch = .ok asset.name ∧
      release.assets.find? (fun x => x.name == asset.name) = some asset ∧
      a = .github { name := release.tag_name, url := asset.browser_download_url } := by
  unfold fetch_latest_server_version at h
  split at h
  · exact absurd h (by simp)
  next release hrel =>
    split at h
    · exact absurd h (by simp)
    next n hname =>
      split at h
      · exact absurd h (by simp)
      next asset hfind =>
        have hn : asset.name = n := by
          have := List.find?_some hfind
          simpa using this
        injection h with h2
        subst hn
        exact ⟨release, asset, hrel, hname, hfind, h2.symm⟩

/-- A release returned by the query with `pre_release := false` is
neither a draft nor a pre-release, and comes from the remote list. -/
lemma latest_github_release_ok_inv {repo : String} {releases : Option (List GithubRelease)}
    {release : GithubRelease}
    (h : latest_github_release repo true false releases = .ok release) :
    release.draft = false ∧ release.prerelease = false ∧
      ∃ rs, releases = some rs ∧ release ∈ rs := by
  unfold latest_github_release at h
  cases releases with
  | none => exact absurd h (by simp)
  | some rs =>
    simp only at h
    cases hfind : rs.find? (fun r =>
        !r.draft && (false || !r.prerelease) && (!true || !r.assets.isEmpty)) with
    | none => rw [hfind] at h; exact absurd h (by simp)
    | some r =>
      rw [hfind] at h
      have hr : r = release := by cases h; rfl
      subst hr
      have hpred := List.find?_some hfind
      have hmem := List.mem_of_find?_eq_some hfind
      simp only [Bool.false_or, Bool.not_true, Bool.and_eq_true, Bool.not_eq_true'] at hpred
      exact ⟨hpred.1.1, hpred.1.2, rs, rfl, hmem⟩

/-- The query's only error is the release-query failure. -/
lemma latest_github_release_error_inv {repo : String} {ra pr : Bool}
    {releases : Option (List GithubRelease)} {e : ProvisionError}
    (h : latest_github_release repo ra pr releases = .error e) :
    e = .releaseQueryFailed := by
  unfold latest_github_release at h
  cases releases with
  | none => injection h with h; exact h.symm
  | some rs =>
    simp only at h
    split at h
    · exact absurd h (by simp)
    · injection h with h; exact h.symm

/-- The platform resolver's only errors are the two unsupported-platform
cases. -/
lemma build_asset_name_error_inv {os arch : String} {e : ProvisionError}
    (h : build_asset_name os arch = .error e) :
    e = .unsupportedOs os ∨ e = .unsupportedArch arch := by
  unfold build_asset_name at h
  cases hs : asset_name_suffix os arch with
  | ok s => rw [hs] at h; exact absurd h (by simp [Except.map])
  | error e2 =>
    rw [hs] at h
    simp [Except.map] at h
    subst h
    unfold asset_name_suffix at hs
    split_ifs at hs <;> simp_all

/-! The claim theorems. -/

/-- C5: for every supported (OS, architecture) pair `build_asset_name`
returns a non-empty asset-name suffix, and for every unsupported pair it
fails, with an unknown OS and an unknown architecture under the
recognized Linux OS as distinct error cases naming the offending OS or
architecture respectively. -/
theorem build_asset_name_total_spec (os arch : String) :
    (∃ suffix, asset_name_suffix os arch = .ok suffix ∧ suffix ≠ "" ∧
      build_asset_name os arch = .ok ("marksman-" ++ suffix)) ∨
    (os ≠ "macos" ∧ os ≠ "linux" ∧ os ≠ "windows" ∧
      build_asset_name os arch = .error (.unsupportedOs os)) ∨
    (os = "linux" ∧ arch ≠ "x86_64" ∧ arch ≠ "aarch64" ∧ arch ≠ "arm64" ∧
      build_asset_name os arch = .error (.unsupportedArch arch)) := by
  by_cases h1 : os = "macos"
  · subst h1
    exact Or.inl ⟨"macos", rfl, by decide, rfl⟩
  by_cases h2 : os = "linux"
  · subst h2
    by_cases a1 : arch = "x86_64"
    · subst a1
      exact Or.inl ⟨"linux-x64", rfl, by decide, rfl⟩
    by_cases a2 : arch = "aarch64"
    · subst a2
      exact Or.inl ⟨"linux-arm64", rfl, by decide, rfl⟩
    by_cases a3 : arch = "arm64"
    · subst a3
      exact Or.inl ⟨"linux-arm64", rfl, by decide, rfl⟩
    · refine Or.inr (Or.inr ⟨rfl, a1, a2, a3, ?_⟩)
      unfold build_asset_name asset_name_suffix
      simp [a1, a2, a3, Except.map]
  by_cases h3 : os = "windows"
  · subst h3
    exact Or.inl ⟨".exe", rfl, by decide, rfl⟩
  · refine Or.inr (Or.inl ⟨h1, h2, h3, ?_⟩)
    unfold build_asset_name asset_name_suffix
    simp [h1, h2, h3, Except.map]

/-- C8: `label_for_completion` is a pure total function that renders
exactly "detail - label" for kind REFERENCE with detail present, and
produces no label override for a REFERENCE item without detail or for any
other (including absent) kind. -/
theorem label_for_completion_spec (c : CompletionItem) :
    (∀ d, c.kind = some COMPLETION_ITEM_KIND_REFERENCE → c.detail = some d →
      label_for_completion c = some { text := d ++ " - " ++ c.label }) ∧
    (c.kind = some COMPLETION_ITEM_KIND_REFERENCE → c.detail = none →
      label_for_completion c = none) ∧
    (c.kind ≠ some COMPLETION_ITEM_KIND_REFERENCE → label_for_completion c = none) := by
  obtain ⟨k, label, detail⟩ := c
  refine ⟨?_, ?_, ?_⟩
  · rintro d rfl rfl
    simp [label_for_completion, CodeLabel.plain, COMPLETION_ITEM_KIND_REFERENCE]
  · rintro rfl rfl
    simp [label_for_completion]
  · intro hk
    cases k with
    | none => simp [label_for_completion]
    | some k =>
      have hk' : k ≠ COMPLETION_ITEM_KIND_REFERENCE := by simpa using hk
      simp [label_for_completion, hk']

/-- Witness for C8 at the spec's example: kind REFERENCE, detail
"Heading", label "intro" yields exactly "Heading - intro". -/
theorem label_for_completion_spec_witness :
    label_for_completion
        { kind := some COMPLETION_ITEM_KIND_REFERENCE, label := "intro",
          detail := some "Heading" } =
      some { text := "Heading - intro" } := by
  have h := (label_for_completion_spec
    { kind := some COMPLETION_ITEM_KIND_REFERENCE, label := "intro",
      detail := some "Heading" }).1 "Heading" rfl rfl
  simpa using h

/-- C7: the cache reader returns absence when the container is unreadable
or empty (and when a directory entry errors while being read), never an
error; for a readable non-empty container it returns the last entry in
directory iteration order as the binary path, with an empty argument
vector and no environment override. -/
theorem get_cached_server_binary_spec (paths : List String) (p : String)
    (entries rest : List (Option String)) :
    get_cached_server_binary none = none ∧
    get_cached_server_binary (some []) = none ∧
    get_cached_server_binary (some (entries ++ none :: rest)) = none ∧
    (paths.getLast? = some p →
      get_cached_server_binary (some (paths.map some)) =
        some { path := p, env := none, arguments := [] }) := by
  refine ⟨rfl, rfl, ?_, ?_⟩
  · simp [get_cached_server_binary, readDirLast_entry_error]
  · intro hlast
    simp [get_cached_server_binary, readDirLast_map_some, hlast]

/-- Witness for C7: with version-named files "marksman-2.0.0" then
"marksman-0.1.0" in iteration order, the reader returns the path last in
iteration order, not the maximal version. -/
theorem get_cached_server_binary_spec_witness :
    get_cached_server_binary
        (some [some "C/marksman-2.0.0", some "C/marksman-0.1.0"]) =
      some { path := "C/marksman-0.1.0", env := none, arguments := [] } :=
  (get_cached_server_binary_spec ["C/marksman-2.0.0", "C/marksman-0.1.0"]
    "C/marksman-0.1.0" [] []).2.2.2 (by decide)

/-- C1 counterexample: a successful fast-path call (the target file
already present) does not prune, so a stale sibling entry survives and
the container holds two files after the call succeeds. -/
theorem fetch_server_binary_prune_cex :
    (fetch_server_binary { name := "1.0.0", url := "https://example.com/dl" } "C" none
        [{ path := "C/marksman-1.0.0", contents := [], mode := 0o755 },
         { path := "C/junk", contents := [], mode := 0o644 }]).1 =
      .ok { path := "C/marksman-1.0.0", env := none, arguments := ["server"] } ∧
    (fetch_server_binary { name := "1.0.0", url := "https://example.com/dl" } "C" none
        [{ path := "C/marksman-1.0.0", contents := [], mode := 0o755 },
         { path := "C/junk", contents := [], mode := 0o644 }]).2.1.length ≠ 1 := by
  decide

/-- C1 amended: after every successful `fetch_server_binary` call in
which no file already existed at the target path, the container directory
contains exactly one file, named for the just-fetched version (every
other entry removed); a fast-path success leaves the directory
unchanged. -/
theorem fetch_server_binary_prune_amended (version : GitHubLspBinaryVersion)
    (container_dir : String) (http : Option Response) (fs : List FsEntry)
    (b : LanguageServerBinary)
    (hmiss : fs.find? (fun e => e.path == binaryPath container_dir version) = none)
    (hok : (fetch_server_binary version container_dir http fs).1 = .ok b) :
    ∃ response, http = some response ∧
      (fetch_server_binary version container_dir http fs).2.1 =
        [{ path := binaryPath container_dir version, contents := response.body,
           mode := 0o755 }] := by
  have hnm := path_not_mem_of_find?_eq_none hmiss
  cases http with
  | none => simp [fetch_server_binary, hmiss] at hok
  | some response =>
    by_cases hst : statusIsSuccess response.status = true
    · refine ⟨response, rfl, ?_⟩
      simp [fetch_server_binary, hmiss, hst,
        prune_pipeline fs (binaryPath container_dir version) response.body hnm]
    · have hst' : statusIsSuccess response.status = false := by
        simpa using hst
      simp [fetch_server_binary, hmiss, hst'] at hok

/-- Witness for the amended C1: a cold download into a container holding
one stale entry leaves exactly the one new version-named file. -/
theorem fetch_server_binary_prune_amended_witness :
    ∃ response, (some { status := 200, body := [7, 8] } : Option Response) = some response ∧
      (fetch_server_binary { name := "1.0.0", url := "https://example.com/dl" } "C"
          (some { status := 200, body := [7, 8] })
          [{ path := "C/marksman-0.9.0", contents := [1], mode := 0o755 }]).2.1 =
        [{ path := binaryPath "C" { name := "1.0.0", url := "https://example.com/dl" },
           contents := response.body, mode := 0o755 }] :=
  fetch_server_binary_prune_amended { name := "1.0.0", url := "https://example.com/dl" }
    "C" (some { status := 200, body := [7, 8] })
    [{ path := "C/marksman-0.9.0", contents := [1], mode := 0o755 }]
    { path := binaryPath "C" { name := "1.0.0", url := "https://example.com/dl" },
      env := none, arguments := server_binary_arguments }
    (by decide) (by decide)

/-- C3: a response with a non-success status makes `fetch_server_binary`
fail with the download-failed error carrying that status, and the
just-created zero-byte file at the target path is left in the container
rather than deleted or rolled back. -/
theorem fetch_server_binary_download_failed (version : GitHubLspBinaryVersion)
    (container_dir : String) (response : Response) (fs : List FsEntry)
    (hmiss : fs.find? (fun e => e.path == binaryPath container_dir version) = none)
    (hstatus : statusIsSuccess response.status = false) :
    fetch_server_binary version container_dir (some response) fs =
      (.error (.downloadFailed response.status),
       fs ++ [{ path := binaryPath container_dir version, contents := [], mode := 0o644 }],
       1) := by
  have hnm := path_not_mem_of_find?_eq_none hmiss
  simp [fetch_server_binary, hmiss, hstatus,
    createFile_of_not_mem fs (binaryPath container_dir version) hnm]

/-- Witness for C3 at HTTP 404 into a container holding one older entry. -/
theorem fetch_server_binary_download_failed_witness :
    fetch_server_binary { name := "1.0.0", url := "https://example.com/dl" } "C"
        (some { status := 404, body := [] })
        [{ path := "C/marksman-0.9.0", contents := [1], mode := 0o755 }] =
      (.error (.downloadFailed 404),
       [{ path := "C/marksman-0.9.0", contents := [1], mode := 0o755 }] ++
         [{ path := binaryPath "C" { name := "1.0.0", url := "https://example.com/dl" },
            contents := [], mode := 0o644 }],
       1) :=
  fetch_server_binary_download_failed { name := "1.0.0", url := "https://example.com/dl" }
    "C" { status := 404, body := [] }
    [{ path := "C/marksman-0.9.0", contents := [1], mode := 0o755 }]
    (by decide) (by decide)

/-- C10: a transport-level GET failure (no response obtained) leaves the
container directory unchanged — no file is created at the target path —
and, when no file already existed at the target path, the call returns
the wrapped download error after its single GET attempt. -/
theorem fetch_server_binary_transport_failure (version : GitHubLspBinaryVersion)
    (container_dir : String) (fs : List FsEntry) :
    (fetch_server_binary version container_dir none fs).2.1 = fs ∧
    (fs.find? (fun e => e.path == binaryPath container_dir version) = none →
      fetch_server_binary version container_dir none fs =
        (.error .downloadError, fs, 1)) := by
  constructor
  · cases hfind : fs.find? (fun e => e.path == binaryPath container_dir version) with
    | none => simp [fetch_server_binary, hfind]
    | some e => simp [fetch_server_binary, hfind]
  · intro hmiss
    simp [fetch_server_binary, hmiss]

/-- Witness for C10: a transport failure over a non-empty container
returns the download error and leaves the single stale entry in place. -/
theorem fetch_server_binary_transport_failure_witness :
    (fetch_server_binary { name := "1.0.0", url := "https://example.com/dl" } "C" none
        [{ path := "C/marksman-0.9.0", contents := [1], mode := 0o755 }]).2.1 =
      [{ path := "C/marksman-0.9.0", contents := [1], mode := 0o755 }] ∧
    fetch_server_binary { name := "1.0.0", url := "https://example.com/dl" } "C" none
        [{ path := "C/marksman-0.9.0", contents := [1], mode := 0o755 }] =
      (.error .downloadError,
       [{ path := "C/marksman-0.9.0", contents := [1], mode := 0o755 }], 1) :=
  ⟨(fetch_server_binary_transport_failure { name := "1.0.0", url := "https://example.com/dl" }
      "C" [{ path := "C/marksman-0.9.0", contents := [1], mode := 0o755 }]).1,
   (fetch_server_binary_transport_failure { name := "1.0.0", url := "https://example.com/dl" }
      "C" [{ path := "C/marksman-0.9.0", contents := [1], mode := 0o755 }]).2 (by decide)⟩

/-- C2: `fetch_server_binary` is idempotent — when a file already exists
at the target path the call succeeds immediately with zero GET requests
and an unchanged container; and after any successful call, a second call
with the same version and container performs zero GET requests and
returns the same executable path, so two calls from a cold start perform
exactly the one download of the first call. -/
theorem fetch_server_binary_idempotent (version : GitHubLspBinaryVersion)
    (container_dir : String) (http http2 : Option Response) (fs : List FsEntry) :
    ((fs.find? (fun e => e.path == binaryPath container_dir version)).isSome = true →
      fetch_server_binary version container_dir http fs =
        (.ok { path := binaryPath container_dir version, env := none,
               arguments := server_binary_arguments }, fs, 0)) ∧
    (fs.find? (fun e => e.path == binaryPath container_dir version) = none →
      (fetch_server_binary version container_dir http fs).2.2 = 1) ∧
    (∀ b, (fetch_server_binary version container_dir http fs).1 = .ok b →
      fetch_server_binary version container_dir http2
          (fetch_server_binary version container_dir http fs).2.1 =
        (.ok b, (fetch_server_binary version container_dir http fs).2.1, 0)) := by
  refine ⟨?_, ?_, ?_⟩
  · intro hfind
    simp [fetch_server_binary, hfind]
  · intro hmiss
    cases http with
    | none => simp [fetch_server_binary, hmiss]
    | some response =>
      by_cases hst : statusIsSuccess response.status = true
      · simp [fetch_server_binary, hmiss, hst]
      · have hst' : statusIsSuccess response.status = false := by simpa using hst
        simp [fetch_server_binary, hmiss, hst']
  · intro b hok
    cases hfind : fs.find? (fun e => e.path == binaryPath container_dir version) with
    | some e =>
      have h1 : fetch_server_binary version container_dir http fs =
          (.ok { path := binaryPath container_dir version, env := none,
                 arguments := server_binary_arguments }, fs, 0) := by
        simp [fetch_server_binary, hfind]
      rw [h1] at hok ⊢
      have hb : b = { path := binaryPath container_dir version, env := none,
                      arguments := server_binary_arguments } := by
        simpa using hok.symm
      subst hb
      have hfind2 : (fs.find?
          (fun e => e.path == binaryPath container_dir version)).isSome = true := by
        simp [hfind]
      simp [fetch_server_binary, hfind2]
    | none =>
      have hnm := path_not_mem_of_find?_eq_none hfind
      cases http with
      | none => simp [fetch_server_binary, hfind] at hok
      | some response =>
        by_cases hst : statusIsSuccess response.status = true
        · have h1 : fetch_server_binary version container_dir (some response) fs =
              (.ok { path := binaryPath container_dir version, env := none,
                     arguments := server_binary_arguments },
               [{ path := binaryPath container_dir version,
                  contents := response.body, mode := 0o755 }], 1) := by
            simp [fetch_server_binary, hfind, hst,
              prune_pipeline fs (binaryPath container_dir version) response.body hnm]
          rw [h1] at hok ⊢
          have hb : b = { path := binaryPath container_dir version, env := none,
                          arguments := server_binary_arguments } := by
            simpa using hok.symm
          subst hb
          simp [fetch_server_binary, List.find?]
        · have hst' : statusIsSuccess response.status = false := by simpa using hst
          simp [fetch_server_binary, hfind, hst'] at hok

/-- Witness for C2: after a cold download, a second call with no network
available at all still succeeds with the same path, changes nothing, and
performs zero GET requests. -/
theorem fetch_server_binary_idempotent_witness :
    fetch_server_binary { name := "1.0.0", url := "https://example.com/dl" } "C" none
        (fetch_server_binary { name := "1.0.0", url := "https://example.com/dl" } "C"
            (some { status := 200, body := [7, 8] }) []).2.1 =
      (.ok { path := binaryPath "C" { name := "1.0.0", url := "https://example.com/dl" },
             env := none, arguments := server_binary_arguments },
       (fetch_server_binary { name := "1.0.0", url := "https://example.com/dl" } "C"
           (some { status := 200, body := [7, 8] }) []).2.1, 0) :=
  (fetch_server_binary_idempotent { name := "1.0.0", url := "https://example.com/dl" }
      "C" (some { status := 200, body := [7, 8] }) none []).2.2
    { path := binaryPath "C" { name := "1.0.0", url := "https://example.com/dl" },
      env := none, arguments := server_binary_arguments }
    (by decide)

/-- C4: a successful resolution comes from a release the query returned
with pre-releases and drafts excluded, and carries exactly that release's
tag as the version identifier together with the matched asset's download
URL, the asset's name being the platform resolver's output. -/
theorem fetch_latest_release_query_spec (releases : Option (List GithubRelease))
    (os arch : String) (v : GitHubLspBinaryVersion)
    (h : fetch_latest_server_version releases os arch = .ok (.github v)) :
    ∃ release asset,
      latest_github_release "artempyanykh/marksman" true false releases = .ok release ∧
      release.draft = false ∧ release.prerelease = false ∧
      asset ∈ release.assets ∧ build_asset_name os arch = .ok asset.name ∧
      v.name = release.tag_name ∧ v.url = asset.browser_download_url := by
  obtain ⟨release, asset, hrel, hname, hfind, heq⟩ := fetch_latest_ok_inv h
  obtain ⟨hdraft, hpre, -⟩ := latest_github_release_ok_inv hrel
  have hmem := List.mem_of_find?_eq_some hfind
  injection heq with hv
  subst hv
  exact ⟨release, asset, hrel, hdraft, hpre, hmem, hname, rfl, rfl⟩

/-- Witness for C4 at a concrete one-release list matched on macOS. -/
theorem fetch_latest_release_query_spec_witness :
    ∃ release asset,
      latest_github_release "artempyanykh/marksman" true false
          (some [{ tag_name := "2023.1", prerelease := false, draft := false,
                   assets := [{ name := "marksman-macos",
                                browser_download_url := "https://example.com/m" }] }]) =
        .ok release ∧
      release.draft = false ∧ release.prerelease = false ∧
      asset ∈ release.assets ∧ build_asset_name "macos" "arm64" = .ok asset.name ∧
      ({ name := "2023.1", url := "https://example.com/m" } :
          GitHubLspBinaryVersion).name = release.tag_name ∧
      ({ name := "2023.1", url := "https://example.com/m" } :
          GitHubLspBinaryVersion).url = asset.browser_download_url :=
  fetch_latest_release_query_spec
    (some [{ tag_name := "2023.1", prerelease := false, draft := false,
             assets := [{ name := "marksman-macos",
                          browser_download_url := "https://example.com/m" }] }])
    "macos" "arm64" { name := "2023.1", url := "https://example.com/m" } (by decide)

/-- C6: resolution fails with the no-matching-asset error exactly when
the query succeeded, the platform name resolved, and no asset of the
selected release has a name character-for-character equal to it; in that
case the caller's flow triggers no download and leaves the container
untouched. -/
theorem fetch_latest_no_matching_asset_iff (releases : Option (List GithubRelease))
    (os arch container_dir : String) (http : Option Response) (fs : List FsEntry)
    (n : String) :
    (fetch_latest_server_version releases os arch = .error (.noMatchingAsset n) ↔
      ∃ release,
        latest_github_release "artempyanykh/marksman" true false releases = .ok release ∧
        build_asset_name os arch = .ok n ∧
        ∀ asset ∈ release.assets, asset.name ≠ n) ∧
    (fetch_latest_server_version releases os arch = .error (.noMatchingAsset n) →
      provision releases os arch container_dir http fs =
        some (.error (.noMatchingAsset n), fs, 0)) := by
  constructor
  · constructor
    · intro h
      unfold fetch_latest_server_version at h
      split at h
      · next e hrel =>
        injection h with h2
        subst h2
        exact absurd (latest_github_release_error_inv hrel) (by simp)
      next release hrel =>
        split at h
        · next e hname =>
          injection h with h2
          subst h2
          rcases build_asset_name_error_inv hname with h3 | h3 <;> exact absurd h3 (by simp)
        next n0 hname =>
          split at h
          · next hfind =>
            injection h with h2
            injection h2 with h3
            subst h3
            refine ⟨release, hrel, hname, ?_⟩
            intro asset hmem
            have := List.find?_eq_none.mp hfind asset hmem
            simpa using this
          · next asset hfind => exact absurd h (by simp)
    · rintro ⟨release, hrel, hname, hall⟩
      have hfind : release.assets.find? (fun asset => asset.name == n) = none :=
        List.find?_eq_none.mpr (fun a ha => by simpa using hall a ha)
      unfold fetch_latest_server_version
      simp only [hrel, hname, hfind]
  · intro h
    unfold provision
    rw [h]

/-- Witness for C6: a release whose only asset name merely contains the
platform name as a proper substring yields the no-matching-asset error,
and the caller's flow performs zero GET requests on it. -/
theorem fetch_latest_no_matching_asset_iff_witness :
    (∃ release,
      latest_github_release "artempyanykh/marksman" true false
          (some [{ tag_name := "2023.1", prerelease := false, draft := false,
                   assets := [{ name := "marksman-macos-v2",
                                browser_download_url := "https://example.com/m" }] }]) =
        .ok release ∧
      build_asset_name "macos" "arm64" = .ok "marksman-macos" ∧
      ∀ asset ∈ release.assets, asset.name ≠ "marksman-macos") ∧
    provision
        (some [{ tag_name := "2023.1", prerelease := false, draft := false,
                 assets := [{ name := "marksman-macos-v2",
                              browser_download_url := "https://example.com/m" }] }])
        "macos" "arm64" "C" none [] =
      some (.error (.noMatchingAsset "marksman-macos"), [], 0) := by
  have h := fetch_latest_no_matching_asset_iff
    (some [{ tag_name := "2023.1", prerelease := false, draft := false,
             assets := [{ name := "marksman-macos-v2",
                          browser_download_url := "https://example.com/m" }] }])
    "macos" "arm64" "C" none [] "marksman-macos"
  exact ⟨h.1.mp (by decide), h.2 (by decide)⟩

/-- C9: the unconditional downcast-and-unwrap in `fetch_server_binary`
panics (modelled as `none`) on any boxed value that is not a
`GitHubLspBinaryVersion`; under the precondition that the boxed value was
produced by `fetch_latest_server_version`, the downcast always succeeds,
so the panic branch is unreachable in the composed flow. -/
theorem fetch_server_binary_downcast_spec (releases : Option (List GithubRelease))
    (os arch : String) (boxed : AnyValue) (t container_dir : String)
    (http : Option Response) (fs : List FsEntry)
    (h : fetch_latest_server_version releases os arch = .ok boxed) :
    fetch_server_binary_any (.other t) container_dir http fs = none ∧
    ∃ v, boxed = .github v ∧
      fetch_server_binary_any boxed container_dir http fs =
        some (fetch_server_binary v container_dir http fs) ∧
      provision releases os arch container_dir http fs =
        some (fetch_server_binary v container_dir http fs) := by
  obtain ⟨release, asset, hrel, hname, hfind, heq⟩ := fetch_latest_ok_inv h
  subst heq
  refine ⟨rfl, _, rfl, rfl, ?_⟩
  unfold provision
  rw [h]
  rfl

/-- Witness for C9: the resolved box from a concrete matching release
downcasts successfully, while an alien box panics. -/
theorem fetch_server_binary_downcast_spec_witness :
    fetch_server_binary_any (.other "not-a-version") "C" none [] = none ∧
    ∃ v, (AnyValue.github { name := "2023.1", url := "https://example.com/m" }) = .github v ∧
      fetch_server_binary_any
          (.github { name := "2023.1", url := "https://example.com/m" }) "C" none [] =
        some (fetch_server_binary v "C" none []) ∧
      provision
          (some [{ tag_name := "2023.1", prerelease := false, draft := false,
                   assets := [{ name := "marksman-macos",
                                browser_download_url := "https://example.com/m" }] }])
          "macos" "arm64" "C" none [] =
        some (fetch_server_binary v "C" none []) :=
  fetch_server_binary_downcast_spec
    (some [{ tag_name := "2023.1", prerelease := false, draft := false,
             assets := [{ name := "marksman-macos",
                          browser_download_url := "https://example.com/m" }] }])
    "macos" "arm64" (.github { name := "2023.1", url := "https://example.com/m" })
    "not-a-version" "C" none [] (by decide)

end Markdown
